import Mathlib

/-!
Verification of the coco cooperative-concurrency runtime (`coco.h`).

The embedding models the native-coroutine core: the thread-local FIFO
scheduler (`scheduler_t`), the task promise with join waiters and captured
exception (`co_t::promise_type`), the typed channel with its bounded data
buffer, handoff queue and blocked reader/writer queues (`chan_t`), and the
wait group (`wg_t`).

Coroutine handles are modelled as natural-number identifiers.  The liveness
guard `handle && !handle.done()` that the source applies before every
enqueue is modelled by a boolean predicate `live` on identifiers.  Every
operation that can wake other tasks returns, besides its result and the
updated component state, the list of handles it passed to
`scheduler_t::schedule`, in order.
-/

namespace Coco

/-- `scheduler_t::schedule`: append `h` to the ready queue if the handle is
live and not done (`handle && !handle.done()`). -/
def schedule (live : Nat → Bool) (q : List Nat) (h : Nat) : List Nat :=
  if live h then q ++ [h] else q

/-- Scheduling a list of handles one after the other, front first (models a
drain loop that pops a waiter queue and schedules each element). -/
def scheduleAll (live : Nat → Bool) (q : List Nat) (hs : List Nat) : List Nat :=
  hs.foldl (schedule live) q

theorem scheduleAll_nil (live : Nat → Bool) (q : List Nat) :
    scheduleAll live q [] = q := rfl

theorem scheduleAll_cons (live : Nat → Bool) (q : List Nat) (h : Nat) (hs : List Nat) :
    scheduleAll live q (h :: hs) = scheduleAll live (schedule live q h) hs := rfl

theorem scheduleAll_allLive (live : Nat → Bool) (hlive : ∀ x, live x = true)
    (hs : List Nat) : ∀ q, scheduleAll live q hs = q ++ hs := by
  induction hs with
  | nil => intro q; simp [scheduleAll]
  | cons h t ih =>
      intro q
      rw [scheduleAll_cons, ih]
      simp [schedule, hlive]

/-- The always-live handle environment (no handle is null or done). -/
def allLive : Nat → Bool := fun _ => true

/-- `scheduler_t::run`, generalised over a world `σ` of task states.
`liveF s h` models `handle && !handle.done()` at world `s`; `resumeF h s q`
models resuming handle `h`: it may update the world and append further
handles to the ready queue `q` (via `schedule`).  The function returns the
final world, the queue at the moment the loop exits, the sequence of popped
handles, and the sequence of actually-resumed handles.  `fuel` bounds the
number of loop iterations; `none` means the fuel ran out. -/
def schedRun {σ : Type} (liveF : σ → Nat → Bool) (resumeF : Nat → σ → List Nat → σ × List Nat) :
    Nat → σ → List Nat → Option (σ × List Nat × List Nat × List Nat)
  | _, s, [] => some (s, [], [], [])
  | 0, _, _ :: _ => none
  | fuel + 1, s, h :: q =>
      if liveF s h then
        let p := resumeF h s q
        match schedRun liveF resumeF fuel p.1 p.2 with
        | some (s', qf, pt, rt) => some (s', qf, h :: pt, h :: rt)
        | none => none
      else
        match schedRun liveF resumeF fuel s q with
        | some (s', qf, pt, rt) => some (s', qf, h :: pt, rt)
        | none => none

/-- `chan_t<T>`: capacity, main data buffer (`dataq`), rendezvous handoff
queue (`handoff_q`), closed flag, blocked readers (`rq`), blocked writers
(`wq`).  Queues push at the back and pop at the front. -/
structure Chan (T : Type) where
  cap : Nat
  dataq : List T
  handoff_q : List T
  closed : Bool
  rq : List Nat
  wq : List Nat
deriving DecidableEq

/-- A freshly constructed channel: `chan_t(int cap)`. -/
def Chan.init (T : Type) (cap : Nat) : Chan T :=
  ⟨cap, [], [], false, [], []⟩

/-- `read_wait_t::wake_up_writer`: pop the front of `wq` (if any) and
schedule it when live. -/
def wake_up_writer {T : Type} (live : Nat → Bool) (c : Chan T) : Chan T × List Nat :=
  match c.wq with
  | [] => (c, [])
  | w :: ws => ({ c with wq := ws }, if live w then [w] else [])

/-- `write_wait_t::wake_up_reader`: pop the front of `rq` (if any) and
schedule it when live. -/
def wake_up_reader {T : Type} (live : Nat → Bool) (c : Chan T) : Chan T × List Nat :=
  match c.rq with
  | [] => (c, [])
  | r :: rs => ({ c with rq := rs }, if live r then [r] else [])

/-- `chan_t::read_wait_t::await_ready`: ready if there is buffered data,
handoff data, or the channel is closed. -/
def read_await_ready {T : Type} (c : Chan T) : Bool :=
  !c.dataq.isEmpty || !c.handoff_q.isEmpty || c.closed

/-- `chan_t::read_wait_t::await_suspend`: enrol the reader at the back of
`rq`. -/
def read_await_suspend {T : Type} (h : Nat) (c : Chan T) : Chan T :=
  { c with rq := c.rq ++ [h] }

/-- `chan_t::read_wait_t::await_resume`: unbuffered channels take from the
handoff queue first; buffered channels pop the main buffer and promote one
parked item from the handoff queue into the buffer ("direct handoff");
otherwise resolve `nullopt`.  Returns (result, channel, scheduled). -/
def read_await_resume {T : Type} (live : Nat → Bool) (c : Chan T) :
    Option T × Chan T × List Nat :=
  match c.cap, c.handoff_q with
  | 0, d :: hs =>
      let p := wake_up_writer live { c with handoff_q := hs }
      (some d, p.1, p.2)
  | _, _ =>
      match c.dataq, c.handoff_q with
      | d :: ds, w :: hs =>
          let p := wake_up_writer live { c with dataq := ds ++ [w], handoff_q := hs }
          (some d, p.1, p.2)
      | d :: ds, [] => (some d, { c with dataq := ds }, [])
      | [], _ => (none, c, [])

/-- `chan_t::write_wait_t::await_ready`: always ready when closed;
unbuffered channels are ready when a reader is parked; buffered channels
are ready when the buffer has slack. -/
def write_await_ready {T : Type} (c : Chan T) : Bool :=
  if c.closed then true
  else if c.cap = 0 then !c.rq.isEmpty
  else c.dataq.length < c.cap

/-- `chan_t::write_wait_t::await_suspend`: park the value on the handoff
queue and enrol the writer at the back of `wq` (this also sets
`is_waked_up_`, modelled by the `waked` argument of
`write_await_resume`). -/
def write_await_suspend {T : Type} (h : Nat) (v : T) (c : Chan T) : Chan T :=
  { c with handoff_q := c.handoff_q ++ [v], wq := c.wq ++ [h] }

/-- `chan_t::write_wait_t::await_resume`: resolve `false` whenever the
channel is closed; a woken writer (`waked = true`, i.e. `is_waked_up_`)
resolves `true` with no state change; a direct writer pushes its value
(handoff queue if unbuffered, buffer otherwise) and wakes one reader. -/
def write_await_resume {T : Type} (live : Nat → Bool) (waked : Bool) (v : T) (c : Chan T) :
    Bool × Chan T × List Nat :=
  if c.closed then (false, c, [])
  else if c.cap = 0 then
    if waked then (true, c, [])
    else
      let p := wake_up_reader live { c with handoff_q := c.handoff_q ++ [v] }
      (true, p.1, p.2)
  else
    if waked then (true, c, [])
    else
      let p := wake_up_reader live { c with dataq := c.dataq ++ [v] }
      (true, p.1, p.2)

/-- Outcome of stepping a channel awaitable from a running task: the
operation either completes in place with a result or parks the task. -/
inductive OpRes (α : Type) where
  | done : α → OpRes α
  | parked : OpRes α
deriving DecidableEq

/-- One full `co_await c.read()` step by task `h`: if `await_ready` then
`await_resume` runs immediately on the unchanged state, otherwise the task
parks via `await_suspend`. -/
def chan_read {T : Type} (live : Nat → Bool) (h : Nat) (c : Chan T) :
    OpRes (Option T) × Chan T × List Nat :=
  if read_await_ready c then
    let p := read_await_resume live c
    (OpRes.done p.1, p.2.1, p.2.2)
  else
    (OpRes.parked, read_await_suspend h c, [])

/-- One full `co_await c.write(v)` step by task `h`: if `await_ready` then
`await_resume` runs immediately with `is_waked_up_ = false`, otherwise the
task parks via `await_suspend` (which sets `is_waked_up_`). -/
def chan_write {T : Type} (live : Nat → Bool) (h : Nat) (v : T) (c : Chan T) :
    OpRes Bool × Chan T × List Nat :=
  if write_await_ready c then
    let p := write_await_resume live false v c
    (OpRes.done p.1, p.2.1, p.2.2)
  else
    (OpRes.parked, write_await_suspend h v c, [])

/-- `chan_t::close`: set the closed flag, then drain `rq` and `wq` in
order, scheduling each live handle.  Returns the channel and the scheduled
handles. -/
def chan_close {T : Type} (live : Nat → Bool) (c : Chan T) : Chan T × List Nat :=
  ({ c with closed := true, rq := [], wq := [] },
    c.rq.filter live ++ c.wq.filter live)

/-- `co_t::promise_type`: the join-waiter queue, the completion flag and
the captured exception.  `E` is the (opaque) type of exceptions. -/
structure Promise (E : Type) where
  join_waiters : List Nat
  completed : Bool
  exception : Option E
deriving DecidableEq

/-- A freshly created promise. -/
def Promise.init (E : Type) : Promise E :=
  ⟨[], false, none⟩

/-- `co_t::promise_type::unhandled_exception`: capture the current
exception in the promise. -/
def unhandled_exception {E : Type} (e : E) (p : Promise E) : Promise E :=
  { p with exception := some e }

/-- `co_t::promise_type::final_suspend`: set `completed` and drain the
join-waiter queue onto the scheduler ready queue `q`, front first. -/
def final_suspend {E : Type} (live : Nat → Bool) (p : Promise E) (q : List Nat) :
    Promise E × List Nat :=
  ({ p with completed := true, join_waiters := [] },
    scheduleAll live q p.join_waiters)

/-- The terminal transition of a task body: if the body raised (`some e`)
then `unhandled_exception` captures it, and in either case control reaches
`final_suspend`. -/
def run_to_completion {E : Type} (live : Nat → Bool) (raised : Option E)
    (p : Promise E) (q : List Nat) : Promise E × List Nat :=
  final_suspend live
    (match raised with
     | some e => unhandled_exception e p
     | none => p) q

/-- `co_t::join_awaiter::await_ready` (for a live handle): ready when the
task has completed. -/
def join_await_ready {E : Type} (p : Promise E) : Bool :=
  p.completed

/-- `co_t::join_awaiter::await_suspend`: enrol the joiner on the promise's
join-waiter queue when the task has not completed. -/
def join_await_suspend {E : Type} (h : Nat) (p : Promise E) : Promise E :=
  if p.completed then p else { p with join_waiters := p.join_waiters ++ [h] }

/-- `co_t::join_awaiter::await_resume`: rethrow the captured exception if
there is one, otherwise return normally. -/
def join_await_resume {E : Type} (p : Promise E) : Except E Unit :=
  match p.exception with
  | some e => Except.error e
  | none => Except.ok ()

/-- `co_t::get_exception` (for a live handle). -/
def get_exception {E : Type} (p : Promise E) : Option E :=
  p.exception

/-- `wg_t`: the waiter queue and the unsigned counter. -/
structure Wg where
  waiters : List Nat
  cnt : Nat
deriving DecidableEq

/-- A freshly constructed wait group. -/
def Wg.init : Wg := ⟨[], 0⟩

/-- `wg_t::add`: `cnt += delta` on a `uint64_t` counter, so the sum wraps
modulo `2 ^ 64` on overflow (behaviour the repo's `test_wg_no_bounds.cpp`
exercises deliberately). -/
def wg_add (delta : Nat) (w : Wg) : Wg :=
  { w with cnt := (w.cnt + delta) % 2 ^ 64 }

/-- `wg_t::done`: decrement the counter if it is positive; if the counter
is now zero, drain the waiter queue onto the scheduler ready queue `q`. -/
def wg_done (live : Nat → Bool) (w : Wg) (q : List Nat) : Wg × List Nat :=
  let cnt1 := if 0 < w.cnt then w.cnt - 1 else w.cnt
  if cnt1 = 0 then
    (⟨[], cnt1⟩, scheduleAll live q w.waiters)
  else
    ({ w with cnt := cnt1 }, q)

/-- One full `co_await wg.wait()` step by task `h`:
`async_wait_t::await_ready` resolves immediately when the counter is zero,
otherwise `await_suspend` enrols the task on the waiter queue. -/
def wg_wait (h : Nat) (w : Wg) : OpRes Unit × Wg :=
  if w.cnt = 0 then (OpRes.done (), w) else (OpRes.parked, { w with waiters := w.waiters ++ [h] })

/-- The atomic channel transitions available to the single-threaded
program: a task performs a full read step (`co_await c.read()`), a parked
reader resumes (`read_wait_t::await_resume` after being scheduled), a task
performs a full write step (`co_await c.write(v)`), a parked writer resumes
(`write_wait_t::await_resume` with `is_waked_up_` set), or someone calls
`close`.  Inspections (`size`, `cap`, `ready`, `closed`) do not mutate. -/
inductive ChanStep {T : Type} (live : Nat → Bool) : Chan T → Chan T → Prop where
  | readStep (h : Nat) (c : Chan T) : ChanStep live c (chan_read live h c).2.1
  | readResumeStep (c : Chan T) : ChanStep live c (read_await_resume live c).2.1
  | writeStep (h : Nat) (v : T) (c : Chan T) : ChanStep live c (chan_write live h v c).2.1
  | writeResumeStep (v : T) (c : Chan T) :
      ChanStep live c (write_await_resume live true v c).2.1
  | closeStep (c : Chan T) : ChanStep live c (chan_close live c).1

/-- Channel states reachable from a freshly constructed channel of the
given capacity. -/
inductive ChanReach {T : Type} (live : Nat → Bool) (cap : Nat) : Chan T → Prop where
  | init : ChanReach live cap (Chan.init T cap)
  | step {c c' : Chan T} : ChanReach live cap c → ChanStep live c c' → ChanReach live cap c'

/-- The channel state invariant: the main buffer respects the capacity
bound (and is empty for rendezvous channels), and a closed channel has no
parked readers or writers. -/
def chanInv {T : Type} (c : Chan T) : Prop :=
  c.dataq.length ≤ c.cap ∧ (c.cap = 0 → c.dataq = []) ∧
    (c.closed = true → c.rq = [] ∧ c.wq = [])

/-- A woken writer's `await_resume` never mutates the channel and resolves
`true` exactly when the channel is still open. -/
theorem write_await_resume_waked {T : Type} (live : Nat → Bool) (v : T) (c : Chan T) :
    write_await_resume live true v c = (!c.closed, c, []) := by
  rcases c with ⟨cap, dq, hq, cl, rq, wq⟩
  cases cl <;> cases cap <;> simp [write_await_resume]

theorem chanInv_init {T : Type} (cap : Nat) : chanInv (Chan.init T cap) := by
  simp [chanInv, Chan.init]

theorem chanInv_wake_up_writer {T : Type} (live : Nat → Bool) (c : Chan T)
    (h : chanInv c) : chanInv (wake_up_writer live c).1 := by
  rcases c with ⟨cap, dq, hq, cl, rq, wq⟩
  rcases h with ⟨h1, h2, h3⟩
  cases wq with
  | nil => exact ⟨h1, h2, h3⟩
  | cons w ws =>
      refine ⟨h1, h2, fun hcl => ?_⟩
      exact absurd (h3 hcl).2 (by simp)

theorem chanInv_read_resume {T : Type} (live : Nat → Bool) (c : Chan T)
    (h : chanInv c) : chanInv (read_await_resume live c).2.1 := by
  rcases c with ⟨cap, dq, hq, cl, rq, wq⟩
  rcases h with ⟨h1, h2, h3⟩
  simp only [chanInv] at h1 h2 h3 ⊢
  cases cap with
  | zero =>
      cases hq with
      | nil =>
          cases dq with
          | nil => simpa [read_await_resume] using h3
          | cons d ds => simp at h2
      | cons d hs =>
          simp only [read_await_resume]
          exact chanInv_wake_up_writer live _ ⟨h1, h2, h3⟩
  | succ n =>
      cases dq with
      | nil =>
          cases hq with
          | nil => simpa [read_await_resume] using h3
          | cons w hs => simpa [read_await_resume] using h3
      | cons d ds =>
          cases hq with
          | nil =>
              simp only [read_await_resume]
              simp only [List.length_cons] at h1
              refine ⟨by omega, by simp, ?_⟩
              simpa using h3
          | cons w hs =>
              simp only [read_await_resume]
              refine chanInv_wake_up_writer live _ ⟨?_, by simp, h3⟩
              simp only [List.length_cons] at h1
              simp
              omega

theorem chanInv_read {T : Type} (live : Nat → Bool) (h : Nat) (c : Chan T)
    (hI : chanInv c) : chanInv (chan_read live h c).2.1 := by
  by_cases hr : read_await_ready c = true
  · simpa [chan_read, hr] using chanInv_read_resume live c hI
  · have hrf : read_await_ready c = false := by simpa using hr
    have hcl : c.closed = false := by
      simp only [read_await_ready, Bool.or_eq_false_iff] at hrf
      exact hrf.2
    rcases hI with ⟨h1, h2, h3⟩
    simp only [chan_read, hrf, Bool.false_eq_true, reduceIte, read_await_suspend]
    exact ⟨h1, h2, fun hcl' => by rw [show ({ c with rq := c.rq ++ [h] } : Chan T).closed
      = c.closed from rfl, hcl] at hcl'; cases hcl'⟩

theorem chanInv_wake_up_reader {T : Type} (live : Nat → Bool) (c : Chan T)
    (h : chanInv c) : chanInv (wake_up_reader live c).1 := by
  rcases c with ⟨cap, dq, hq, cl, rq, wq⟩
  rcases h with ⟨h1, h2, h3⟩
  cases rq with
  | nil => exact ⟨h1, h2, h3⟩
  | cons r rs =>
      refine ⟨h1, h2, fun hcl => ?_⟩
      exact absurd (h3 hcl).1 (by simp)

theorem chanInv_write {T : Type} (live : Nat → Bool) (h : Nat) (v : T) (c : Chan T)
    (hI : chanInv c) : chanInv (chan_write live h v c).2.1 := by
  rcases c with ⟨cap, dq, hq, cl, rq, wq⟩
  rcases hI with ⟨h1, h2, h3⟩
  by_cases hr : write_await_ready (⟨cap, dq, hq, cl, rq, wq⟩ : Chan T) = true
  · simp only [chan_write, hr, if_true]
    cases cl with
    | true => simpa [write_await_resume] using ⟨h1, h2, h3⟩
    | false =>
        cases cap with
        | zero =>
            simp only [write_await_resume]
            simp only [if_false, Bool.false_eq_true, reduceIte]
            exact chanInv_wake_up_reader live _ ⟨h1, h2, by simp⟩
        | succ n =>
            simp only [write_await_ready, Bool.false_eq_true, reduceIte,
              Nat.succ_ne_zero, decide_eq_true_eq] at hr
            simp only [write_await_resume]
            simp only [Bool.false_eq_true, reduceIte, Nat.succ_ne_zero]
            refine chanInv_wake_up_reader live _ ⟨?_, by simp, by simp⟩
            simp only [List.length_append, List.length_cons, List.length_nil]
            omega
  · simp only [chan_write, hr, if_false, Bool.false_eq_true, reduceIte, write_await_suspend]
    have hcl : cl = false := by
      by_contra hne
      have : cl = true := by cases cl <;> simp_all
      simp [write_await_ready, this] at hr
    subst hcl
    exact ⟨h1, h2, by simp⟩

theorem chanInv_write_resume_waked {T : Type} (live : Nat → Bool) (v : T) (c : Chan T)
    (hI : chanInv c) : chanInv (write_await_resume live true v c).2.1 := by
  rw [write_await_resume_waked]
  exact hI

theorem chanInv_close {T : Type} (live : Nat → Bool) (c : Chan T)
    (hI : chanInv c) : chanInv (chan_close live c).1 := by
  rcases c with ⟨cap, dq, hq, cl, rq, wq⟩
  rcases hI with ⟨h1, h2, h3⟩
  exact ⟨h1, h2, by simp [chan_close]⟩

theorem chanInv_step {T : Type} {live : Nat → Bool} {c c' : Chan T}
    (hI : chanInv c) (hs : ChanStep live c c') : chanInv c' := by
  cases hs with
  | readStep h c => exact chanInv_read live h c hI
  | readResumeStep c => exact chanInv_read_resume live c hI
  | writeStep h v c => exact chanInv_write live h v c hI
  | writeResumeStep v c => exact chanInv_write_resume_waked live v c hI
  | closeStep c => exact chanInv_close live c hI

theorem chanInv_reach {T : Type} {live : Nat → Bool} {cap : Nat} {c : Chan T}
    (hr : ChanReach live cap c) : chanInv c := by
  induction hr with
  | init => exact chanInv_init cap
  | step _ hs ih => exact chanInv_step ih hs

/-- The atomic wait-group transitions available to the program: `add`,
`done` and a full `co_await wg.wait()` step. -/
inductive WgStep (live : Nat → Bool) : Wg → Wg → Prop where
  | addStep (delta : Nat) (w : Wg) : WgStep live w (wg_add delta w)
  | doneStep (q : List Nat) (w : Wg) : WgStep live w (wg_done live w q).1
  | waitStep (h : Nat) (w : Wg) : WgStep live w (wg_wait h w).2

/-- Wait-group states reachable from a freshly constructed wait group. -/
inductive WgReach (live : Nat → Bool) : Wg → Prop where
  | init : WgReach live Wg.init
  | step {w w' : Wg} : WgReach live w → WgStep live w w' → WgReach live w'

/-- Wait-group states reachable without counter wrap-around: as `WgReach`,
but every `add` keeps `cnt + delta` below `2 ^ 64`, so the `uint64_t`
addition in `wg_add` never truncates. -/
inductive WgReachNW (live : Nat → Bool) : Wg → Prop where
  | init : WgReachNW live Wg.init
  | addStep {w : Wg} (delta : Nat) : WgReachNW live w →
      w.cnt + delta < 2 ^ 64 → WgReachNW live (wg_add delta w)
  | doneStep {w : Wg} (q : List Nat) : WgReachNW live w →
      WgReachNW live (wg_done live w q).1
  | waitStep {w : Wg} (h : Nat) : WgReachNW live w →
      WgReachNW live (wg_wait h w).2

/-- Wait-group invariant on wrap-free histories: waiters are enrolled only
while the counter is positive, so a zero counter means an empty waiter
queue.  (A wrapping `add` breaks this: see the C6 counterexample.) -/
theorem wg_zero_no_waiters {live : Nat → Bool} {w : Wg}
    (hr : WgReachNW live w) (h0 : w.cnt = 0) : w.waiters = [] := by
  induction hr with
  | init => rfl
  | @addStep w1 delta _ hnw ih =>
      have hsum : w1.cnt + delta = 0 := by
        simp only [wg_add] at h0
        rwa [Nat.mod_eq_of_lt hnw] at h0
      have : w1.cnt = 0 := by omega
      simpa [wg_add] using ih this
  | @doneStep w1 q _ ih =>
      by_cases hz : (if 0 < w1.cnt then w1.cnt - 1 else w1.cnt) = 0
      · simp [wg_done, hz]
      · simp only [wg_done, hz, reduceIte] at h0
  | @waitStep w1 h _ ih =>
      by_cases hz : w1.cnt = 0
      · simp only [wg_wait, hz, reduceIte]
        exact ih hz
      · simp only [wg_wait, hz, reduceIte] at h0

/-- A single task awaiting `c.write(v)` for each `v` in `vs` in order; the
sequence stops if a write parks the task.  Returns the final channel, the
per-operation outcomes and all scheduled handles. -/
def chan_write_seq {T : Type} (live : Nat → Bool) (h : Nat) :
    List T → Chan T → Chan T × List (OpRes Bool) × List Nat
  | [], c => (c, [], [])
  | v :: vs, c =>
      match chan_write live h v c with
      | (OpRes.done b, c', sc) =>
          let rest := chan_write_seq live h vs c'
          (rest.1, OpRes.done b :: rest.2.1, sc ++ rest.2.2)
      | (OpRes.parked, c', sc) => (c', [OpRes.parked], sc)

/-- A single task awaiting `c.read()` `n` times in sequence; the sequence
stops if a read parks the task. -/
def chan_read_seq {T : Type} (live : Nat → Bool) (h : Nat) :
    Nat → Chan T → Chan T × List (OpRes (Option T)) × List Nat
  | 0, c => (c, [], [])
  | n + 1, c =>
      match chan_read live h c with
      | (OpRes.done v, c', sc) =>
          let rest := chan_read_seq live h n c'
          (rest.1, OpRes.done v :: rest.2.1, sc ++ rest.2.2)
      | (OpRes.parked, c', sc) => (c', [OpRes.parked], sc)

theorem chan_write_seq_open_slack {T : Type} (live : Nat → Bool) (h : Nat) (k : Nat)
    (vs : List T) : ∀ ds : List T, ds.length + vs.length ≤ k →
    chan_write_seq live h vs (⟨k, ds, [], false, [], []⟩ : Chan T) =
      (⟨k, ds ++ vs, [], false, [], []⟩, vs.map (fun _ => OpRes.done true), []) := by
  induction vs with
  | nil => intro ds hlen; simp [chan_write_seq]
  | cons v vs ih =>
      intro ds hlen
      have hlt : ds.length < k := by
        simp only [List.length_cons] at hlen
        omega
      have hk0 : k ≠ 0 := by omega
      have hready : write_await_ready (⟨k, ds, [], false, [], []⟩ : Chan T) = true := by
        simp [write_await_ready, hk0, hlt]
      have hstep : chan_write live h v (⟨k, ds, [], false, [], []⟩ : Chan T) =
          (OpRes.done true, ⟨k, ds ++ [v], [], false, [], []⟩, []) := by
        simp [chan_write, hready, write_await_resume, hk0, wake_up_reader]
      have hlen' : (ds ++ [v]).length + vs.length ≤ k := by
        simp only [List.length_cons] at hlen
        simp only [List.length_append, List.length_cons, List.length_nil]
        omega
      have hrest := ih (ds ++ [v]) hlen'
      simp [chan_write_seq, hstep, hrest]

theorem chan_read_seq_open_data {T : Type} (live : Nat → Bool) (h : Nat) (k : Nat) :
    ∀ n : Nat, ∀ ds : List T, n ≤ ds.length →
    chan_read_seq live h n (⟨k, ds, [], false, [], []⟩ : Chan T) =
      (⟨k, ds.drop n, [], false, [], []⟩,
        (ds.take n).map (fun v => OpRes.done (some v)), []) := by
  intro n
  induction n with
  | zero => intro ds hlen; simp [chan_read_seq]
  | succ m ih =>
      intro ds hlen
      cases ds with
      | nil => simp at hlen
      | cons d ds' =>
          have hready : read_await_ready (⟨k, d :: ds', [], false, [], []⟩ : Chan T) = true := by
            simp [read_await_ready]
          have hstep : chan_read live h (⟨k, d :: ds', [], false, [], []⟩ : Chan T) =
              (OpRes.done (some d), ⟨k, ds', [], false, [], []⟩, []) := by
            cases k <;> simp [chan_read, hready, read_await_resume]
          have hrest := ih ds' (by simpa using hlen)
          simp [chan_read_seq, hstep, hrest]

/-- The spec §8 scenario-6 channel: capacity-1 channel holding `A`, a
second sender parked with `B` on the handoff queue, then `close()`. -/
def closeScenarioChan (A B : Nat) : Chan Nat :=
  (chan_close allLive
    ((chan_write allLive 11 B ((chan_write allLive 10 A (Chan.init Nat 1)).2.1)).2.1)).1

/-- C1 (counterexample): in the capacity-1 scenario with buffered `A` and
parked `B`, after `close` the reader following the `Some(A)` reader
resolves `Some(B)` — the parked value is promoted into the buffer by the
first read and delivered, contradicting the claim that it is dropped and
`None` is observed. -/
theorem close_parked_value_cex :
    (chan_read allLive 13 ((chan_read allLive 12 (closeScenarioChan 1 2)).2.1)).1
        = OpRes.done (some 2) ∧
      (write_await_resume allLive true 2 (closeScenarioChan 1 2)).1 = false := by
  decide

/-- C1 (amended): after `close`, a value parked in the handoff queue is
not dropped: the blocked sender is notified `false`, but the first read
after close promotes the parked value into the buffer, so readers observe
`Some(A)`, then `Some(B)`, then `None`. -/
theorem close_parked_value_delivered (A B : Nat) :
    (write_await_resume allLive true B (closeScenarioChan A B)).1 = false ∧
    (chan_read allLive 12 (closeScenarioChan A B)).1 = OpRes.done (some A) ∧
    (chan_read allLive 13 ((chan_read allLive 12 (closeScenarioChan A B)).2.1)).1
      = OpRes.done (some B) ∧
    (chan_read allLive 14 ((chan_read allLive 13
      ((chan_read allLive 12 (closeScenarioChan A B)).2.1)).2.1)).1
      = OpRes.done none := by
  refine ⟨rfl, rfl, rfl, rfl⟩

/-- The adoption scenario: capacity-1 channel holding `A`, a sender parks
with `B`; a reader pops `A` and adopts `B` into the buffer (direct
handoff), scheduling the sender; then the channel is closed before the
sender resumes. -/
def adoptedScenarioChan (A B : Nat) : Chan Nat :=
  (chan_close allLive
    ((chan_read allLive 12
      ((chan_write allLive 11 B ((chan_write allLive 10 A (Chan.init Nat 1)).2.1)).2.1)).2.1)).1

/-- C2 (counterexample): a sender whose parked value `2` has already been
adopted into the buffer (and who was scheduled by the adopting read, handle
`11`) still resolves `false` when it resumes after `close` — the
write-resume path checks only the closed flag, contradicting the claim
that adopted senders resolve `true`. -/
theorem adopted_sender_resolves_false_cex :
    (adoptedScenarioChan 1 2).dataq = [2] ∧
    (chan_read allLive 12 ((chan_write allLive 11 2 ((chan_write allLive 10 1
        (Chan.init Nat 1)).2.1)).2.1)).2.2 = [11] ∧
    (write_await_resume allLive true 2 (adoptedScenarioChan 1 2)).1 = false := by
  decide

/-- C2 (amended): a suspended sender's resumption result depends only on
the closed flag, never on adoption: it resolves `false` whenever the
channel is closed at resume time (even if its value was adopted) and
`true` whenever the channel is still open, in both cases leaving the
channel unchanged and scheduling nothing. -/
theorem resumed_sender_result {T : Type} (live : Nat → Bool) (v : T) (c : Chan T) :
    write_await_resume live true v c = (!c.closed, c, []) :=
  write_await_resume_waked live v c

/-- The lost-wakeup trace: on an unbuffered channel, reader `20` parks;
task `21` writes `7` (fast path, scheduling reader `20`), then itself
reads, consuming the handoff item before `20` runs; this is the channel
state reader `20` finally resumes on. -/
def stolenWakeupChan : Chan Nat :=
  (chan_read allLive 21
    ((chan_write allLive 21 7 ((chan_read allLive 20 (Chan.init Nat 0)).2.1)).2.1)).2.1

/-- C3: the claim (`None` implies closed-and-drained; a reader resuming on
an open empty channel retries instead of resolving `None`) fails on the
code: in the lost-wakeup trace the woken reader's `await_resume` returns
`nullopt` although the channel was never closed — the code's own comment
(`// Channel is closed and empty`) asserts the condition the claim states.
The conjuncts check: the channel is open; the write did schedule reader
`20`; the stealing read got `Some 7`; reader `20` then resolves `None`. -/
theorem read_resolves_none_on_open_channel :
    stolenWakeupChan.closed = false ∧
    (chan_write allLive 21 7 ((chan_read allLive 20 (Chan.init Nat 0)).2.1)).2.2 = [20] ∧
    (chan_read allLive 21 ((chan_write allLive 21 7 ((chan_read allLive 20
        (Chan.init Nat 0)).2.1)).2.1)).1 = OpRes.done (some 7) ∧
    (read_await_resume allLive stolenWakeupChan).1 = none := by
  decide

/-- C7: on every reachable channel state, the main buffer holds at most
`cap` items, and an unbuffered channel's main buffer is empty. -/
theorem buffer_capacity_invariant {T : Type} (live : Nat → Bool) (cap : Nat)
    (c : Chan T) (hr : ChanReach live cap c) :
    c.dataq.length ≤ c.cap ∧ (c.cap = 0 → c.dataq = []) := by
  obtain ⟨h1, h2, -⟩ := chanInv_reach hr
  exact ⟨h1, h2⟩

/-- C7 witness: the invariant at a concrete reachable state (capacity-1
channel after a direct write and a parked write). -/
theorem buffer_capacity_invariant_witness :
    ((chan_write allLive 11 2 ((chan_write allLive 10 1
        (Chan.init Nat 1)).2.1)).2.1).dataq.length ≤
      ((chan_write allLive 11 2 ((chan_write allLive 10 1
        (Chan.init Nat 1)).2.1)).2.1).cap ∧
    (((chan_write allLive 11 2 ((chan_write allLive 10 1
        (Chan.init Nat 1)).2.1)).2.1).cap = 0 →
      ((chan_write allLive 11 2 ((chan_write allLive 10 1
        (Chan.init Nat 1)).2.1)).2.1).dataq = []) :=
  buffer_capacity_invariant allLive 1 _
    (ChanReach.step (ChanReach.step ChanReach.init (ChanStep.writeStep 10 1 _))
      (ChanStep.writeStep 11 2 _))

/-- C9: on every reachable channel that is already closed, `close` is a
no-op: the channel state is unchanged and no task is scheduled (so all
subsequent reads and writes observe exactly what they would after a single
close). -/
theorem close_idempotent {T : Type} (live : Nat → Bool) (cap : Nat) (c : Chan T)
    (hr : ChanReach live cap c) (hc : c.closed = true) :
    chan_close live c = (c, []) := by
  obtain ⟨-, -, h3⟩ := chanInv_reach hr
  obtain ⟨hrq, hwq⟩ := h3 hc
  rcases c with ⟨cap', dq, hq, cl, rq, wq⟩
  simp only at hc hrq hwq
  subst hc; subst hrq; subst hwq
  simp [chan_close]

/-- C9 witness: closing an already-closed capacity-1 channel changes
nothing and schedules nothing. -/
theorem close_idempotent_witness :
    chan_close allLive ((chan_close allLive (Chan.init Nat 1)).1)
      = ((chan_close allLive (Chan.init Nat 1)).1, []) :=
  close_idempotent allLive 1 _
    (ChanReach.step ChanReach.init (ChanStep.closeStep _)) (by decide)

/-- C10: awaiting `write(c, v)` on a closed channel resolves `false`
without suspending the writer, leaves the buffer, handoff queue, receiver
queue and sender queue untouched, and schedules nothing. -/
theorem write_on_closed_noop {T : Type} (live : Nat → Bool) (h : Nat) (v : T)
    (c : Chan T) (hc : c.closed = true) :
    chan_write live h v c = (OpRes.done false, c, []) := by
  simp [chan_write, write_await_ready, write_await_resume, hc]

/-- C10 witness: a write on a freshly closed channel. -/
theorem write_on_closed_noop_witness :
    chan_write allLive 5 7 ((chan_close allLive (Chan.init Nat 2)).1)
      = (OpRes.done false, (chan_close allLive (Chan.init Nat 2)).1, []) :=
  write_on_closed_noop allLive 5 7 _ (by decide)

/-- C8: on a fresh open channel of capacity `k > 0`, writing `v₁..vₙ`
(`n ≤ k`) and then reading `n` times from a single task yields
`Some(v₁)..Some(vₙ)` in order; no operation parks the task (no suspension)
and no handle is ever scheduled. -/
theorem buffered_round_trip {T : Type} (live : Nat → Bool) (h1 h2 : Nat) (k : Nat)
    (vs : List T) (_hk : 0 < k) (hn : vs.length ≤ k) :
    chan_write_seq live h1 vs (Chan.init T k)
      = (⟨k, vs, [], false, [], []⟩, vs.map (fun _ => OpRes.done true), []) ∧
    chan_read_seq live h2 vs.length (chan_write_seq live h1 vs (Chan.init T k)).1
      = (Chan.init T k, vs.map (fun v => OpRes.done (some v)), []) := by
  have hw := chan_write_seq_open_slack live h1 k vs [] (by simpa using hn)
  have hw' : chan_write_seq live h1 vs (Chan.init T k)
      = (⟨k, vs, [], false, [], []⟩, vs.map (fun _ => OpRes.done true), []) := by
    simpa [Chan.init] using hw
  refine ⟨hw', ?_⟩
  rw [hw']
  have hr := chan_read_seq_open_data live h2 k vs.length vs (le_refl _)
  simpa [Chan.init] using hr

/-- C8 witness: capacity 2, values `[3, 4]`. -/
theorem buffered_round_trip_witness :
    chan_write_seq allLive 1 [3, 4] (Chan.init Nat 2)
      = (⟨2, [3, 4], [], false, [], []⟩, [3, 4].map (fun _ => OpRes.done true), []) ∧
    chan_read_seq allLive 2 ([3, 4] : List Nat).length
        (chan_write_seq allLive 1 [3, 4] (Chan.init Nat 2)).1
      = (Chan.init Nat 2, [3, 4].map (fun v => OpRes.done (some v)), []) :=
  buffered_round_trip allLive 1 2 2 [3, 4] (by decide) (by decide)

/-- C5: a task whose body raises `e` reaches terminal suspension with the
failure captured: `completed` is set, the exception slot holds `e`
(whether or not any join waiter `ws` exists — the failure is never lost),
`join`'s `await_resume` re-raises an error equal to `e`, `get_exception`
returns `e` without raising, and every join waiter is drained onto the
scheduler queue in enrolment order. -/
theorem join_exception_fidelity {E : Type} (live : Nat → Bool) (e : E)
    (ws q : List Nat) :
    (run_to_completion live (some e) ⟨ws, false, none⟩ q).1.exception = some e ∧
    (run_to_completion live (some e) ⟨ws, false, none⟩ q).1.completed = true ∧
    join_await_resume (run_to_completion live (some e) ⟨ws, false, none⟩ q).1
      = Except.error e ∧
    get_exception (run_to_completion live (some e) ⟨ws, false, none⟩ q).1 = some e ∧
    (run_to_completion live (some e) ⟨ws, false, none⟩ q).2 = scheduleAll live q ws := by
  simp [run_to_completion, final_suspend, unhandled_exception, join_await_resume,
    get_exception]

/-- The wrap trace: `add(1)`, a `wait()` that parks handle `7`, then
`add(2 ^ 64 - 1)`, which wraps the `uint64_t` counter back to zero while
the waiter is still enrolled. -/
def wgWrapState : Wg :=
  wg_add (2 ^ 64 - 1) ((wg_wait 7 (wg_add 1 Wg.init)).2)

/-- C6 (counterexample): the wrap trace reaches counter zero with waiter
`7` still enrolled, and there `done()` with the counter already zero is
not a no-op: it drains the waiter queue and schedules the waiter. -/
theorem wg_done_at_zero_schedules_cex :
    WgReach allLive wgWrapState ∧
    wgWrapState.cnt = 0 ∧ wgWrapState.waiters = [7] ∧
    wg_done allLive wgWrapState [] = (⟨[], 0⟩, [7]) := by
  refine ⟨?_, by decide, by decide, by decide⟩
  exact WgReach.step (WgReach.step (WgReach.step WgReach.init
    (WgStep.addStep 1 _)) (WgStep.waitStep 7 _)) (WgStep.addStep (2 ^ 64 - 1) _)

/-- C6 (amended): `done()` decrements the counter saturating at zero, and
whenever it observes or lands on a zero counter it schedules every
enrolled waiter, in FIFO enrolment order when all handles are live.  The
no-op-at-zero clause holds only on wrap-free histories: since `add` wraps
the `uint64_t` counter, a wrapping `add` can reach counter zero with
waiters still enrolled, where `done()` schedules them; on histories whose
adds never wrap, a zero counter implies no enrolled waiters and `done()`
at zero changes nothing and schedules nothing. -/
theorem wg_done_spec (live : Nat → Bool) (w : Wg) (q : List Nat) :
    (wg_done live w q).1.cnt = w.cnt - 1 ∧
    (w.cnt = 0 → wg_done live w q = (⟨[], 0⟩, scheduleAll live q w.waiters)) ∧
    (WgReachNW live w → w.cnt = 0 → wg_done live w q = (w, q)) ∧
    (w.cnt = 1 → wg_done live w q = (⟨[], 0⟩, scheduleAll live q w.waiters)) ∧
    (w.cnt = 1 → (∀ x, live x = true) → (wg_done live w q).2 = q ++ w.waiters) := by
  refine ⟨?_, ?_, ?_, ?_, ?_⟩
  · by_cases hp : 0 < w.cnt
    · by_cases hz : w.cnt - 1 = 0 <;> simp [wg_done, hp, hz]
    · have h0 : w.cnt = 0 := by omega
      simp [wg_done, h0]
  · intro h0
    simp [wg_done, h0]
  · intro hr h0
    have hwt := wg_zero_no_waiters hr h0
    rcases w with ⟨wt, cnt⟩
    simp only at h0 hwt
    subst h0; subst hwt
    simp [wg_done, scheduleAll]
  · intro h1
    simp [wg_done, h1]
  · intro h1 hlive
    simp [wg_done, h1, scheduleAll_allLive live hlive]

/-- C6 witness: wait group with counter 1 and one enrolled waiter, built
by `add(1)` then a parking `wait()`. -/
theorem wg_done_spec_witness :
    (wg_done allLive ((wg_wait 7 (wg_add 1 Wg.init)).2) [9]).1.cnt
        = ((wg_wait 7 (wg_add 1 Wg.init)).2).cnt - 1 ∧
    (((wg_wait 7 (wg_add 1 Wg.init)).2).cnt = 0 →
      wg_done allLive ((wg_wait 7 (wg_add 1 Wg.init)).2) [9]
        = (⟨[], 0⟩, scheduleAll allLive [9] ((wg_wait 7 (wg_add 1 Wg.init)).2).waiters)) ∧
    (WgReachNW allLive ((wg_wait 7 (wg_add 1 Wg.init)).2) →
      ((wg_wait 7 (wg_add 1 Wg.init)).2).cnt = 0 →
      wg_done allLive ((wg_wait 7 (wg_add 1 Wg.init)).2) [9]
        = ((wg_wait 7 (wg_add 1 Wg.init)).2, [9])) ∧
    (((wg_wait 7 (wg_add 1 Wg.init)).2).cnt = 1 →
      wg_done allLive ((wg_wait 7 (wg_add 1 Wg.init)).2) [9]
        = (⟨[], 0⟩, scheduleAll allLive [9] ((wg_wait 7 (wg_add 1 Wg.init)).2).waiters)) ∧
    (((wg_wait 7 (wg_add 1 Wg.init)).2).cnt = 1 → (∀ x, allLive x = true) →
      (wg_done allLive ((wg_wait 7 (wg_add 1 Wg.init)).2) [9]).2
        = [9] ++ ((wg_wait 7 (wg_add 1 Wg.init)).2).waiters) :=
  wg_done_spec allLive ((wg_wait 7 (wg_add 1 Wg.init)).2) [9]

theorem schedRun_nil {σ : Type} (liveF : σ → Nat → Bool)
    (resumeF : Nat → σ → List Nat → σ × List Nat) (fuel : Nat) (s : σ) :
    schedRun liveF resumeF fuel s [] = some (s, [], [], []) := by
  cases fuel <;> rfl

theorem schedRun_zero_cons {σ : Type} (liveF : σ → Nat → Bool)
    (resumeF : Nat → σ → List Nat → σ × List Nat) (s : σ) (h : Nat) (q : List Nat) :
    schedRun liveF resumeF 0 s (h :: q) = none := rfl

theorem schedRun_succ_cons {σ : Type} (liveF : σ → Nat → Bool)
    (resumeF : Nat → σ → List Nat → σ × List Nat) (fuel : Nat) (s : σ) (h : Nat)
    (q : List Nat) :
    schedRun liveF resumeF (fuel + 1) s (h :: q) =
      if liveF s h then
        match schedRun liveF resumeF fuel (resumeF h s q).1 (resumeF h s q).2 with
        | some (s', qf, pt, rt) => some (s', qf, h :: pt, h :: rt)
        | none => none
      else
        match schedRun liveF resumeF fuel s q with
        | some (s', qf, pt, rt) => some (s', qf, h :: pt, rt)
        | none => none := rfl

/-- C4: `run()` always exits with an empty queue (it drains every task
enqueued synchronously during dispatch before returning); the popped heads
start with the initial queue in exact enqueue order (strict FIFO, with
tasks enqueued by resumptions appended behind); the resumed tasks form a
sublist of the popped heads (each popped head is resumed at most once per
pop); and when task liveness does not change during the run, a popped head
is resumed exactly when it is live and non-completed. -/
theorem scheduler_run_fifo {σ : Type} (liveF : σ → Nat → Bool)
    (resumeF : Nat → σ → List Nat → σ × List Nat)
    (happ : ∀ (h : Nat) (s : σ) (q : List Nat), ∃ t, (resumeF h s q).2 = q ++ t) :
    ∀ (fuel : Nat) (s : σ) (q : List Nat) (s' : σ) (qf pt rt : List Nat),
    schedRun liveF resumeF fuel s q = some (s', qf, pt, rt) →
    qf = [] ∧ (∃ t, pt = q ++ t) ∧ rt.Sublist pt ∧
      ((∀ (s1 s2 : σ) (h : Nat), liveF s1 h = liveF s2 h) →
        rt = pt.filter (liveF s)) := by
  intro fuel
  induction fuel with
  | zero =>
      intro s q s' qf pt rt hrun
      cases q with
      | nil =>
          rw [schedRun_nil] at hrun
          simp only [Option.some.injEq, Prod.mk.injEq] at hrun
          obtain ⟨-, h1, h2, h3⟩ := hrun
          subst h1; subst h2; subst h3
          exact ⟨rfl, ⟨[], rfl⟩, List.Sublist.refl _, fun _ => rfl⟩
      | cons h q => rw [schedRun_zero_cons] at hrun; cases hrun
  | succ fuel ih =>
      intro s q s' qf pt rt hrun
      cases q with
      | nil =>
          rw [schedRun_nil] at hrun
          simp only [Option.some.injEq, Prod.mk.injEq] at hrun
          obtain ⟨-, h1, h2, h3⟩ := hrun
          subst h1; subst h2; subst h3
          exact ⟨rfl, ⟨[], rfl⟩, List.Sublist.refl _, fun _ => rfl⟩
      | cons h q =>
          rw [schedRun_succ_cons] at hrun
          by_cases hl : liveF s h = true
          · rw [if_pos hl] at hrun
            cases hm : schedRun liveF resumeF fuel (resumeF h s q).1 (resumeF h s q).2 with
            | none => rw [hm] at hrun; cases hrun
            | some out =>
                obtain ⟨s1, qf1, pt1, rt1⟩ := out
                rw [hm] at hrun
                simp only [Option.some.injEq, Prod.mk.injEq] at hrun
                obtain ⟨-, h1, h2, h3⟩ := hrun
                subst h1; subst h2; subst h3
                obtain ⟨hqf, ⟨t1, hpt⟩, hsub, hfil⟩ :=
                  ih (resumeF h s q).1 (resumeF h s q).2 s1 qf1 pt1 rt1 hm
                obtain ⟨t0, ht0⟩ := happ h s q
                refine ⟨hqf, ⟨t0 ++ t1, by rw [hpt, ht0]; simp⟩,
                  List.Sublist.cons₂ h hsub, ?_⟩
                intro hfix
                have hfun : liveF (resumeF h s q).1 = liveF s :=
                  funext (fun x => hfix _ _ x)
                have := hfil hfix
                rw [hfun] at this
                simp [List.filter_cons, hl, this]
          · rw [if_neg hl] at hrun
            cases hm : schedRun liveF resumeF fuel s q with
            | none => rw [hm] at hrun; cases hrun
            | some out =>
                obtain ⟨s1, qf1, pt1, rt1⟩ := out
                rw [hm] at hrun
                simp only [Option.some.injEq, Prod.mk.injEq] at hrun
                obtain ⟨-, h1, h2, h3⟩ := hrun
                subst h1; subst h2; subst h3
                obtain ⟨hqf, ⟨t1, hpt⟩, hsub, hfil⟩ := ih s q s1 qf1 pt1 rt1 hm
                have hlf : liveF s h = false := by
                  cases hx : liveF s h
                  · rfl
                  · exact absurd hx hl
                refine ⟨hqf, ⟨t1, by rw [hpt]; simp⟩, List.Sublist.cons h hsub, ?_⟩
                intro hfix
                have := hfil hfix
                simp [List.filter_cons, hlf, this]

/-- C4 witness: an inert two-task run with full fuel. -/
theorem scheduler_run_fifo_witness :
    ([] : List Nat) = [] ∧ (∃ t, [1, 2] = [1, 2] ++ t) ∧
      List.Sublist [1, 2] [1, 2] ∧
      ((∀ (s1 s2 : Unit) (h : Nat), (fun (_ : Unit) (_ : Nat) => true) s1 h
          = (fun (_ : Unit) (_ : Nat) => true) s2 h) →
        [1, 2] = List.filter ((fun (_ : Unit) (_ : Nat) => true) ()) [1, 2]) :=
  scheduler_run_fifo (fun _ _ => true) (fun _ s q => (s, q))
    (fun _ _ q => ⟨[], by simp⟩) 3 () [1, 2] () [] [1, 2] [1, 2] rfl

end Coco
